import Mathlib

/-!
Verification of the resumable publish pipeline of the aidc-toolkit dev
package.  Definitions are shallow embeddings of the TypeScript sources:
pure string manipulation is translated directly, command execution and
filesystem access become explicit oracle inputs, and thrown exceptions
become the error branch of the Except monad.  The helpers below implement
the JavaScript string methods used by the sources (startsWith, endsWith,
includes, split, substring, charAt) over lists of characters, so that every
definition evaluates inside the kernel.
-/

/-- Check that the first list is an initial segment of the second, the core
of the JavaScript startsWith test. -/
def listHasPre : List Char → List Char → Bool
  | [], _ => true
  | _ :: _, [] => false
  | p :: ps, c :: cs => p == c && listHasPre ps cs

/-- Embedding of the JavaScript string method startsWith. -/
def jsStartsWith (s pat : String) : Bool :=
  listHasPre pat.toList s.toList

/-- Embedding of the JavaScript string method endsWith. -/
def jsEndsWith (s pat : String) : Bool :=
  listHasPre pat.toList.reverse s.toList.reverse

/-- Search for a pattern anywhere in a character list, the core of the
JavaScript includes test. -/
def listHasSub (pat : List Char) : List Char → Bool
  | [] => listHasPre pat []
  | c :: cs => listHasPre pat (c :: cs) || listHasSub pat cs

/-- Embedding of the JavaScript string method includes. -/
def jsIncludes (s pat : String) : Bool :=
  listHasSub pat.toList s.toList

/-- Worker for jsSplit: walk the input, closing the current piece whenever
the separator occurs.  Fuel is the length of the input, which bounds the
number of steps because every step consumes at least one character. -/
def splitSeqAux (sep : List Char) : Nat → List Char → List Char → List (List Char)
  | _, [], cur => [cur.reverse]
  | 0, s, cur => [cur.reverse ++ s]
  | fuel + 1, c :: rest, cur =>
    if !sep.isEmpty && listHasPre sep (c :: rest) then
      cur.reverse :: splitSeqAux sep fuel ((c :: rest).drop sep.length) []
    else
      splitSeqAux sep fuel rest (c :: cur)

/-- Embedding of the JavaScript string method split with a nonempty string
separator. -/
def jsSplit (s sep : String) : List String :=
  (splitSeqAux sep.toList s.toList.length s.toList []).map String.mk

/-- Embedding of the JavaScript expression s.charAt(0), which is the empty
string on an empty input. -/
def jsCharAt0 (s : String) : String :=
  String.mk (s.toList.take 1)

/-- Embedding of the JavaScript expression s.substring(start). -/
def jsSubFrom (s : String) (start : Nat) : String :=
  String.mk (s.toList.drop start)

/-- Embedding of the JavaScript expression s.substring(start, stop). -/
def jsSubRange (s : String) (start stop : Nat) : String :=
  String.mk ((s.toList.drop start).take (stop - start))

example : jsSplit "a\tb\tc" "\t" = ["a", "b", "c"] := by decide
example : jsSplit "old.ts -> new.ts" " -> " = ["old.ts", "new.ts"] := by decide
example : jsEndsWith "1.2.3-alpha" "-alpha" = true := by decide
example : jsIncludes "src/.hidden/x" "/." = true := by decide

/-- Runtime value of a JavaScript variable typed as a string that may also
hold null or undefined.  `Publish._preReleaseIdentifier` is declared as
string-or-null but receives `undefined` from an unmatched regular-expression
capture group, so the three runtime cases must stay distinct. -/
inductive JSStr where
  | null : JSStr
  | undef : JSStr
  | str : String → JSStr
deriving DecidableEq, Repr

/-- Rendering of a JSStr inside a JavaScript template literal: template
interpolation prints undefined as the text "undefined" and null as "null". -/
def JSStr.templateText : JSStr → String
  | JSStr.null => "null"
  | JSStr.undef => "undefined"
  | JSStr.str s => s

/-- Components of a parsed package version, mirroring the private fields
majorVersion, minorVersion, patchVersion and preReleaseIdentifier of the
Publish class in publish-beta.ts. -/
structure PackageVersion where
  major : Nat
  minor : Nat
  patch : Nat
  preRelease : JSStr
deriving DecidableEq, Repr

/-- Decide whether a string is a nonempty run of decimal digits, the language
of the regular-expression fragment matching one or more digits. -/
def isDigits (s : String) : Bool :=
  !s.isEmpty && s.toList.all Char.isDigit

/-- Value of a digit string under the JavaScript Number conversion. -/
def digitsToNat (s : String) : Nat :=
  s.toList.foldl (fun a c => a * 10 + (c.toNat - 48)) 0

/-- Parsing of a package version as done inline in Publish.publishAll
(publish-beta.ts): the version must match major.minor.patch optionally
followed by a hyphen and the identifier alpha or beta; the numeric parts are
converted with Number.  The optional capture group yields undefined (not
null) when it does not participate, because the exec result array always has
length six, so the preRelease component of a bare version is undefined. -/
def parsePackageVersion (version : String) : Option PackageVersion :=
  let coreAndPre : String × JSStr :=
    if jsEndsWith version "-alpha" then
      (jsSubRange version 0 (version.toList.length - 6), JSStr.str "alpha")
    else if jsEndsWith version "-beta" then
      (jsSubRange version 0 (version.toList.length - 5), JSStr.str "beta")
    else (version, JSStr.undef)
  match jsSplit coreAndPre.1 "." with
  | [a, b, c] =>
    if isDigits a && isDigits b && isDigits c then
      some { major := digitsToNat a, minor := digitsToNat b,
             patch := digitsToNat c, preRelease := coreAndPre.2 }
    else none
  | _ => none

/-- Rebuilding of the version string as done by Publish.updatePackageVersion
(publish-beta.ts line 1244): the pre-release suffix is appended whenever the
identifier is not strictly null, using template-literal rendering. -/
def buildVersion (v : PackageVersion) : String :=
  toString v.major ++ "." ++ toString v.minor ++ "." ++ toString v.patch ++
    (if v.preRelease ≠ JSStr.null then "-" ++ v.preRelease.templateText else "")

/-- Round trip of a version string through parse then build, when parsing
succeeds. -/
def roundTrip (s : String) : Option String :=
  (parsePackageVersion s).map buildVersion

/-- Membership test of a JavaScript Set, modelled as a duplicate-free list in
insertion order. -/
def setHas (s : List String) (x : String) : Bool :=
  s.contains x

/-- Removal from a JavaScript Set. -/
def setDelete (s : List String) (x : String) : List String :=
  s.filter (fun y => !(y == x))

/-- Insertion into a JavaScript Set: appended at the end when absent. -/
def setAdd (s : List String) (x : String) : List String :=
  if setHas s x then s else s ++ [x]

/-- Exclusion filter applied when a path is inserted into the changed-file
set (publish-beta.ts line 1085): hidden files and directories are excluded
except under .github/, the test directory is excluded, and so is any path
equal to a configured exclusion or below a configured exclusion directory
(an entry ending in a slash). -/
def passesFilter (excludePaths : List String) (addFile : String) : Bool :=
  ((!jsStartsWith addFile "." && !jsIncludes addFile "/.")
      || jsStartsWith addFile ".github/")
    && !jsStartsWith addFile "test/"
    && (excludePaths.filter (fun excludePath =>
          addFile == excludePath
            || (jsEndsWith excludePath "/" && jsStartsWith addFile excludePath))).length == 0

/-- Deletion phase of processChangedFile: remove the file from the set when
a file to delete was determined. -/
def applyDelete (changedFilesSet : List String) : Option String → List String
  | some d => setDelete changedFilesSet d
  | none => changedFilesSet

/-- Insertion phase of processChangedFile: when a file to add was determined
and is not already present, insert it if it passes the exclusion filter. -/
def applyAdd (excludePaths changedFilesSet : List String) : Option String → List String
  | some a =>
    if !setHas changedFilesSet a then
      if passesFilter excludePaths a then setAdd changedFilesSet a
      else changedFilesSet
    else changedFilesSet
  | none => changedFilesSet

/-- Translation of processChangedFile (publish-beta.ts lines 1073 to 1094).
Status "R" deletes the old name and inserts the new name, status "D" deletes
the name, any other status inserts the name; insertion is guarded by the
exclusion filter.  The file arguments are optional because the JavaScript
call sites destructure split results that may lack fields at runtime. -/
def processChangedFile (excludePaths : List String) (changedFilesSet : List String)
    (status : String) (file : Option String) (newFile : Option String) : List String :=
  let deleteFile : Option String :=
    if status == "D" || status == "R" then file else none
  let addFile : Option String :=
    if status == "R" then newFile else if !(status == "D") then file else none
  applyAdd excludePaths (applyDelete changedFilesSet deleteFile) addFile

/-- Processing of a whole detection window: fold processChangedFile over the
sequence of (status, file, newFile) events, starting from a given set. -/
def processEvents (excludePaths : List String) (s0 : List String)
    (events : List (String × Option String × Option String)) : List String :=
  events.foldl (fun s ev => processChangedFile excludePaths s ev.1 ev.2.1 ev.2.2) s0

/-- Observable event of one executor step: a body execution or a write of
the configuration (with the pointer value it persists). -/
inductive RunEvent where
  | execBody : String → RunEvent
  | persist : Option String → RunEvent
deriving DecidableEq, Repr

/-- Result of one executor step: the in-memory pointer afterwards, the
events in order, and whether the step returned without error. -/
structure StepOutcome where
  pointer : Option String
  events : List RunEvent
  ok : Bool
deriving DecidableEq, Repr

/-- Translation of runStep from publish-external.ts lines 73 to 93; the step
function of release.ts lines 150 to 168 is identical except that the pointer
lives in a state map.  When the persisted pointer is absent or names this
step: set the in-memory pointer to the step, run the body, clear the pointer
only if the body returned, and let the finally clause persist the
configuration exactly once; a body failure propagates after that save.  When
the pointer names another step the body is not executed. -/
def runStep (pointer : Option String) (stepName : String) (bodyOk : Bool) : StepOutcome :=
  if pointer = none ∨ pointer = some stepName then
    if bodyOk then
      { pointer := none,
        events := [RunEvent.execBody stepName, RunEvent.persist none],
        ok := true }
    else
      { pointer := some stepName,
        events := [RunEvent.execBody stepName, RunEvent.persist (some stepName)],
        ok := false }
  else
    { pointer := pointer, events := [], ok := true }

/-- Modelled from the spec: the transition rule for the Step Executor in the
specification, which sets the pointer to S, persists the configuration,
executes the body of S, and clears the pointer and persists again only when
the body returns without error.  Written for comparison with runStep. -/
def runStepSpec (pointer : Option String) (stepName : String) (bodyOk : Bool) : StepOutcome :=
  if pointer = none ∨ pointer = some stepName then
    if bodyOk then
      { pointer := none,
        events := [RunEvent.persist (some stepName), RunEvent.execBody stepName,
                   RunEvent.persist none],
        ok := true }
    else
      { pointer := some stepName,
        events := [RunEvent.persist (some stepName), RunEvent.execBody stepName],
        ok := false }
  else
    { pointer := pointer, events := [], ok := true }

/-- Ordered step names of a beta publication (publish-beta.ts lines 233 to
277): update, build, commit, tag and push always run, each workflow
validation step runs only when the repository declares the matching
workflow, and release always runs. -/
def betaStepList (hasPushWorkflow hasReleaseWorkflow : Bool) : List String :=
  ["update", "build", "commit", "tag", "push"]
    ++ (if hasPushWorkflow then ["workflow (push)"] else [])
    ++ ["release"]
    ++ (if hasReleaseWorkflow then ["workflow (release)"] else [])

/-- Translation of PublishBeta.runStep (publish-beta.ts lines 97 to 109):
when the pointer is absent or names this step, record the body invocation
and end with the pointer cleared, otherwise skip.  This variant never
persists inside the step; the enclosing publishAll saves the configuration
only after publish returns or throws. -/
def runStepBeta (acc : Option String × List String) (stepName : String) :
    Option String × List String :=
  if acc.1 = none ∨ acc.1 = some stepName then (none, acc.2 ++ [stepName])
  else (acc.1, acc.2)

/-- Translation of the control flow of PublishBeta.publish (publish-beta.ts
lines 169 to 283).  Inputs are the pre-release identifier parsed from the
manifest, the persisted step pointer, the two possible anyChanges results as
oracles, and the workflow flags; the output is the list of step bodies that
were invoked together with the final step pointer, or the thrown error. -/
def publishBeta (preReleaseIdentifier : Option String) (publishBetaStep : Option String)
    (changedSinceAlphaStrict changedSinceAlphaLoose : Bool)
    (hasPushWorkflow hasReleaseWorkflow : Bool) :
    Except String (List String × Option String) :=
  let ptr : Option String :=
    if preReleaseIdentifier ≠ some "beta" then none else publishBetaStep
  if preReleaseIdentifier = some "alpha" then
    if changedSinceAlphaStrict then
      Except.error "Repository has changed since last alpha published"
    else
      let r := (betaStepList hasPushWorkflow hasReleaseWorkflow).foldl runStepBeta (ptr, [])
      Except.ok (r.2, some "complete")
  else
    if ptr = none ∧ changedSinceAlphaLoose then
      Except.error "Internal error, repository has changed without intermediate alpha publication"
    else if ¬ptr = none ∧ ¬ptr = some "complete" then
      let r := (betaStepList hasPushWorkflow hasReleaseWorkflow).foldl runStepBeta (ptr, [])
      Except.ok (r.2, some "complete")
    else
      Except.ok ([], ptr)

/-- Digits of a string: the result of replacing every non-digit with the
empty string, as done with replaceAll in publish-alpha.ts line 139. -/
def digitsOf (s : String) : String :=
  String.mk (s.toList.filter Char.isDigit)

/-- Transient alpha stamp (publish-alpha.ts line 139): the digits of the ISO
timestamp truncated to its first twelve characters, which for a standard ISO
timestamp is year, month, day, hour and minute. -/
def transientStamp (iso : String) : String :=
  jsSubRange (digitsOf iso) 0 12

/-- Version strings produced by the changed branch of PublishAlpha.publish
(publish-alpha.ts lines 104 to 160).  When the current identifier is not
alpha, the patch is incremented and the identifier set to alpha; that bare
alpha version is saved and is what the backup of package.json holds.  For
the npm publish step the manifest temporarily carries the transient
identifier alpha followed by the stamp; the finally clause then restores the
backed-up file, and that restored bare alpha version is what gets committed.
The first component is the published version, the second the committed
one. -/
def alphaPublishVersions (v : PackageVersion) (iso : String) : String × String :=
  let vBare : PackageVersion :=
    if v.preRelease ≠ JSStr.str "alpha" then
      { v with patch := v.patch + 1, preRelease := JSStr.str "alpha" }
    else v
  let vTransient : PackageVersion :=
    { vBare with preRelease := JSStr.str ("alpha." ++ transientStamp iso) }
  (buildVersion vTransient, buildVersion vBare)

/-- JavaScript object spread of two objects, each a list of property names
with values: the properties of the base in order, with values replaced by
the override where the override has the property, followed by the
properties only the override has. -/
def spreadMerge (base override : List (String × String)) : List (String × String) :=
  base.map (fun kv =>
    match override.lookup kv.1 with
    | some v => (kv.1, v)
    | none => kv)
  ++ override.filter (fun kv => (base.lookup kv.1).isNone)

/-- Translation of the repository merge in the Publish constructor
(publish-beta.ts lines 830 to 837), identical in structure to the
configuration constant of publish.ts lines 102 to 111: the merged map is
built from the entries of the shared store, each spread-merged with the
local entry of the same name when one exists (falling back to the empty
object); local entries with no shared counterpart are never consulted and no
error is raised for them. -/
def mergeRepositories (shared localStore : List (String × List (String × String))) :
    List (String × List (String × String)) :=
  shared.map (fun entry =>
    (entry.1, spreadMerge entry.2 ((localStore.lookup entry.1).getD [])))

/-- Outcome of spawnSync as observed by Publish.run: a spawn error, a
termination by signal (null status), or an exit with a status and the text
written to stdout. -/
inductive SpawnOutcome where
  | spawnErr : String → SpawnOutcome
  | signal : String → SpawnOutcome
  | exited : Nat → String → SpawnOutcome
deriving DecidableEq, Repr

/-- Result of Publish.run: whether a subprocess was spawned, and either the
captured output lines or the thrown error. -/
structure RunCommandResult where
  spawned : Bool
  result : Except String (List String)
deriving Repr

/-- Splitting of captured stdout into lines as done by Publish.run: split on
newline and drop the last piece, which is empty because the final line is
also newline-terminated. -/
def stdoutLines (out : String) : List String :=
  (jsSplit out "\n").dropLast

/-- Translation of Publish.run (publish-beta.ts lines 987 to 1028).  A call
that requests captured output without setting ignoreDryRun throws at once,
whatever the mode.  Otherwise, in dry-run mode without ignoreDryRun the call
is only logged and an empty result returned with no subprocess.  Otherwise
the subprocess is spawned, a spawn error or signal termination or non-zero
status is thrown, and the stdout lines are returned when captured. -/
def publishRun (dryRun ignoreDryRun captureOutput : Bool) (outcome : SpawnOutcome) :
    RunCommandResult :=
  if !ignoreDryRun && captureOutput then
    { spawned := false, result := Except.error "Cannot capture output in dry run" }
  else if dryRun && !ignoreDryRun then
    { spawned := false, result := Except.ok [] }
  else
    match outcome with
    | SpawnOutcome.spawnErr e => { spawned := true, result := Except.error e }
    | SpawnOutcome.signal sig =>
      { spawned := true, result := Except.error ("Terminated by signal " ++ sig) }
    | SpawnOutcome.exited status out =>
      if status ≠ 0 then
        { spawned := true,
          result := Except.error ("Failed with status " ++ toString status) }
      else
        { spawned := true,
          result := Except.ok (if captureOutput then stdoutLines out else []) }

/-- Lexicographic comparison of character lists by code point, the order
JavaScript uses for the less-than and greater-than operators on strings. -/
def listStrLt : List Char → List Char → Bool
  | [], [] => false
  | [], _ :: _ => true
  | _ :: _, [] => false
  | a :: as, b :: bs => decide (a.toNat < b.toNat) || (a == b && listStrLt as bs)

/-- Embedding of the JavaScript string comparison a < b. -/
def jsStrLt (a b : String) : Bool :=
  listStrLt a.toList b.toList

namespace PublishTs

/-- Repository configuration as declared in publish.ts lines 10 to 55. -/
structure Repository where
  directory : Option String := none
  dependencyType : String := "none"
  excludeFiles : Option (List String) := none
  externalOnly : Option Bool := none
  lastInternalPublished : Option String := none
  publishExternalAlways : Option Bool := none
  lastExternalPublished : Option String := none
  lastExternalVersion : Option String := none
  publishExternalStep : Option String := none

/-- Exclusion filter of the processChangedFile closure in publish.ts line
178: like the beta variant but with an exact-match excluded-files set
instead of exact-or-directory matching. -/
def passesFilter (excludedFilesSet : List String) (addFile : String) : Bool :=
  ((!jsStartsWith addFile "." && !jsIncludes addFile "/.")
      || jsStartsWith addFile ".github/")
    && !jsStartsWith addFile "test/"
    && !setHas excludedFilesSet addFile

/-- Translation of processChangedFile (publish.ts lines 166 to 187), the
same event semantics as the beta variant with this file's filter. -/
def processChangedFile (excludedFilesSet changedFilesSet : List String)
    (status : String) (file : Option String) (newFile : Option String) : List String :=
  let deleteFile : Option String :=
    if status == "D" || status == "R" then file else none
  let addFile : Option String :=
    if status == "R" then newFile else if !(status == "D") then file else none
  let afterDelete := applyDelete changedFilesSet deleteFile
  match addFile with
  | some a =>
    if !setHas afterDelete a then
      if passesFilter excludedFilesSet a then setAdd afterDelete a else afterDelete
    else afterDelete
  | none => afterDelete

/-- Check whether a character is a lowercase hexadecimal digit. -/
def isHexLower (c : Char) : Bool :=
  c.isDigit || (decide (97 ≤ c.toNat) && decide (c.toNat ≤ 102))

/-- Test of the commit-header regular expression in publish.ts line 192:
forty lowercase hexadecimal characters followed by a space. -/
def isCommitHeader (line : String) : Bool :=
  (line.toList.take 40).length == 40
    && (line.toList.take 40).all isHexLower
    && (match line.toList.drop 40 with
        | c :: _ => c == ' '
        | [] => false)

/-- Processing of one git log output line (publish.ts lines 190 to 199):
commit headers are skipped, other lines are tab-separated status, file and
optional new file. -/
def processLogLine (excludedFilesSet changedFilesSet : List String) (line : String) :
    List String :=
  if isCommitHeader line then changedFilesSet
  else
    let parts := jsSplit line "\t"
    processChangedFile excludedFilesSet changedFilesSet
      (jsCharAt0 (parts.headD "")) parts[1]? parts[2]?

/-- Processing of one git status porcelain line (publish.ts lines 213 to
219): the first character is the status, the detail after column three
splits on the arrow into the file and the optional new file. -/
def processStatusLine (excludedFilesSet changedFilesSet : List String) (line : String) :
    List String :=
  let status := jsSubRange line 0 1
  let parts := jsSplit (jsSubFrom line 3) " -> "
  processChangedFile excludedFilesSet changedFilesSet status parts[0]? parts[1]?

/-- Final phase of anyChanges (publish.ts lines 223 to 248): with a last
published date, some surviving path must have a modification time after it;
without one, there must have been changes. -/
def finishCheck (lastPublishedString : Option String) (changedFilesSet : List String)
    (mtimeNewer : String → Bool) : Except String Bool :=
  if lastPublishedString.isSome then
    Except.ok (changedFilesSet.any mtimeNewer)
  else
    Except.ok true

/-- Translation of anyChanges (publish.ts lines 145 to 251).  Command
outputs and filesystem state are oracle inputs: gitLogLines is the output of
the git log call since the last published date, gitStatusLines the output of
git status --porcelain, and mtimeNewer reports whether a path's modification
time is strictly after the last published date. -/
def anyChanges (repository : Repository) (external : Bool)
    (gitLogLines gitStatusLines : List String) (mtimeNewer : String → Bool) :
    Except String Bool :=
  let lastPublishedString : Option String :=
    if !external then repository.lastInternalPublished
    else repository.lastExternalPublished
  let excludedFilesSet := repository.excludeFiles.getD []
  let s1 : List String :=
    if lastPublishedString.isSome then
      gitLogLines.foldl (fun s line => processLogLine excludedFilesSet s line) []
    else []
  if lastPublishedString.isSome || external then
    if gitStatusLines.length ≠ 0 then
      if external then Except.error "Repository has uncommitted changes"
      else
        finishCheck lastPublishedString
          (gitStatusLines.foldl (fun s line => processStatusLine excludedFilesSet s line) s1)
          mtimeNewer
    else finishCheck lastPublishedString s1 mtimeNewer
  else finishCheck lastPublishedString s1 mtimeNewer

end PublishTs

namespace Beta

/-- Repository configuration as declared in the Publish base module of
publish-beta.ts (lines 605 to 665), restricted to the persisted fields the
resolver and publish logic read. -/
structure Repository where
  directory : Option String := none
  dependencyType : String := "none"
  additionalDependencies : Option (List String) := none
  excludePaths : Option (List String) := none
  lastAlphaPublished : Option String := none
  publishBetaStep : Option String := none
  lastBetaPublished : Option String := none
  lastProductionPublished : Option String := none

/-- Channel selection of the last-published timestamp, the switch on
releaseType in Publish.publishAll (publish-beta.ts lines 1409 to 1424). -/
def getLastPublished (releaseType : String) (repository : Repository) : Option String :=
  if releaseType == "alpha" then repository.lastAlphaPublished
  else if releaseType == "beta" then repository.lastBetaPublished
  else repository.lastProductionPublished

/-- Translation of Publish.dependencyRepositoryName (publish-beta.ts lines
1039 to 1043): the repository name when the package splits into exactly the
at-organization part and a name. -/
def dependencyRepositoryName (organization dependency : String) : Option String :=
  match jsSplit dependency "/" with
  | [atPart, namePart] =>
    if atPart == "@" ++ organization then some namePart else none
  | _ => none

/-- Assignment into a JavaScript object used as a map: overwrite in place
when the key exists, append otherwise. -/
def objSet (m : List (String × Option String)) (k : String) (v : Option String) :
    List (String × Option String) :=
  if m.any (fun kv => kv.1 == k) then
    m.map (fun kv => if kv.1 == k then (k, v) else kv)
  else m ++ [(k, v)]

/-- Key membership of a JavaScript object used as a map. -/
def objHasKey (m : List (String × Option String)) (k : String) : Bool :=
  m.any (fun kv => kv.1 == k)

/-- Collection of the organization dependencies named in the package
manifest (publish-beta.ts lines 1350 to 1379); the rewriting of the version
expressions in the manifest does not affect the collected map. -/
def collectManifestDeps (organization : String) (manifestDependencies : List String) :
    List (String × Option String) :=
  manifestDependencies.foldl (fun m dependency =>
    match dependencyRepositoryName organization dependency with
    | some n => objSet m n (some dependency)
    | none => m) []

/-- Union of the configured additional dependencies (publish-beta.ts lines
1381 to 1391): an existing key only logs a warning, a new one maps to
null. -/
def addAdditionalDeps (m : List (String × Option String))
    (additionalDependencies : List String) : List (String × Option String) :=
  additionalDependencies.foldl (fun acc a =>
    if objHasKey acc a then acc else acc ++ [(a, none)]) m

/-- Union of the cached dependency sets of the direct dependencies
(publish-beta.ts lines 1393 to 1404): for every key collected so far, the
cache entry written when that repository was processed earlier in the run is
merged in; a missing cache entry is the TypeError thrown by reading
properties of undefined. -/
def addCachedDeps (cache : List (String × List (String × Option String)))
    (m : List (String × Option String)) : Except String (List (String × Option String)) :=
  (m.map Prod.fst).foldlM (fun acc n =>
    match cache.lookup n with
    | none => Except.error ("TypeError: dependencies of " ++ n ++ " are not resolved")
    | some entry =>
      Except.ok (entry.foldl (fun acc2 kv =>
        if objHasKey acc2 kv.1 then acc2 else acc2 ++ [kv]) acc)) m

/-- The full organization-dependency set of one repository: direct manifest
dependencies, then configured additional dependencies, then the cached sets
of all of those. -/
def resolveOrgDependencies (organization : String)
    (cache : List (String × List (String × Option String)))
    (manifestDependencies additionalDependencies : List String) :
    Except String (List (String × Option String)) :=
  addCachedDeps cache
    (addAdditionalDeps (collectManifestDeps organization manifestDependencies)
      additionalDependencies)

/-- One dependency's contribution to the updated flag: its channel timestamp
exists and the repository either has no own timestamp or a strictly earlier
one (string comparison on ISO timestamps, as JavaScript compares them). -/
def depNewer (releaseType : String) (repositories : List (String × Repository))
    (lastPublished : Option String) (n : String) : Bool :=
  match (repositories.lookup n).bind (getLastPublished releaseType) with
  | some dependencyLastPublished =>
    match lastPublished with
    | none => true
    | some lp => jsStrLt lp dependencyLastPublished
  | none => false

/-- Translation of the updated-flag loop of Publish.publishAll
(publish-beta.ts lines 1425 to 1443): walk the dependency names with the
mutable flag; an unconfigured dependency repository is the TypeError of
reading a property of undefined, and a dependency with no channel timestamp
is the internal error thrown there. -/
def computeDepsUpdatedFrom (releaseType : String)
    (repositories : List (String × Repository)) (lastPublished : Option String) :
    Bool → List String → Except String Bool
  | flag, [] => Except.ok flag
  | flag, n :: rest =>
    match repositories.lookup n with
    | none => Except.error ("TypeError: repository " ++ n ++ " is not configured")
    | some dependencyRepository =>
      match getLastPublished releaseType dependencyRepository with
      | none =>
        Except.error ("Internal error, last " ++ releaseType ++ " published not set for " ++ n)
      | some dependencyLastPublished =>
        computeDepsUpdatedFrom releaseType repositories lastPublished
          (if (match lastPublished with
               | none => true
               | some lp => jsStrLt lp dependencyLastPublished) then true else flag)
          rest

/-- The organizationDependenciesUpdated flag, starting from false as the
code does. -/
def computeDepsUpdated (releaseType : String)
    (repositories : List (String × Repository)) (lastPublished : Option String)
    (depNames : List String) : Except String Bool :=
  computeDepsUpdatedFrom releaseType repositories lastPublished false depNames

/-- The anyDependenciesUpdated flag of one repository: resolve the
organization-dependency set, then run the updated-flag loop over its keys
against the repository's own channel timestamp. -/
def anyDependenciesUpdated (organization releaseType : String)
    (repositories : List (String × Repository))
    (cache : List (String × List (String × Option String)))
    (repository : Repository) (manifestDependencies : List String) :
    Except String Bool :=
  match resolveOrgDependencies organization cache manifestDependencies
      (repository.additionalDependencies.getD []) with
  | Except.error e => Except.error e
  | Except.ok deps =>
    computeDepsUpdated releaseType repositories
      (getLastPublished releaseType repository) (deps.map Prod.fst)

end Beta

example : parsePackageVersion "1.2.3" =
    some { major := 1, minor := 2, patch := 3, preRelease := JSStr.undef } := by
  decide

example : roundTrip "1.2.3-alpha" = some "1.2.3-alpha" := by decide

example : roundTrip "1.2.3-beta" = some "1.2.3-beta" := by decide

/-- C3: the claim asserts build(parse(s)) = s for every well-formed version
string.  The code violates this on the bare input "1.2.3": the unmatched
optional capture group stores undefined (not null) as the pre-release
identifier, and updatePackageVersion only suppresses the suffix for null, so
the rebuilt string is "1.2.3-undefined".  This contradicts the field
documentation, which promises the identifier is null when absent. -/
theorem c3_round_trip_fails_on_bare_version :
    parsePackageVersion "1.2.3" =
      some { major := 1, minor := 2, patch := 3, preRelease := JSStr.undef } ∧
    roundTrip "1.2.3" = some "1.2.3-undefined" ∧
    roundTrip "1.2.3" ≠ some "1.2.3" := by
  refine ⟨by decide, by decide, by decide⟩

theorem mem_setDelete {s : List String} {x y : String} :
    x ∈ setDelete s y ↔ x ∈ s ∧ x ≠ y := by
  simp [setDelete]

theorem mem_setAdd {s : List String} {x y : String} :
    x ∈ setAdd s y ↔ x ∈ s ∨ x = y := by
  unfold setAdd setHas
  by_cases h : s.contains y = true
  · rw [if_pos h]
    constructor
    · exact Or.inl
    · rintro (hx | rfl)
      · exact hx
      · simpa using h
  · rw [if_neg h]
    simp [List.mem_append]

theorem mem_applyDelete {s : List String} {d : Option String} {x : String}
    (hx : x ∈ applyDelete s d) : x ∈ s := by
  cases d with
  | none => exact hx
  | some d0 => exact (mem_setDelete.mp hx).1

theorem mem_applyAdd {ex s : List String} {a : Option String} {x : String}
    (hx : x ∈ applyAdd ex s a) : x ∈ s ∨ passesFilter ex x = true := by
  cases a with
  | none => exact Or.inl hx
  | some a0 =>
    rw [show applyAdd ex s (some a0) =
        if (!setHas s a0) = true then
          (if passesFilter ex a0 = true then setAdd s a0 else s)
        else s from rfl] at hx
    by_cases h1 : (!setHas s a0) = true
    · rw [if_pos h1] at hx
      by_cases h2 : passesFilter ex a0 = true
      · rw [if_pos h2] at hx
        rcases mem_setAdd.mp hx with h | h
        · exact Or.inl h
        · subst h
          exact Or.inr h2
      · rw [if_neg h2] at hx
        exact Or.inl hx
    · rw [if_neg h1] at hx
      exact Or.inl hx

theorem processChangedFile_rename (ex s : List String) (a b : String) :
    processChangedFile ex s "R" (some a) (some b) =
      if !setHas (setDelete s a) b then
        (if passesFilter ex b then setAdd (setDelete s a) b else setDelete s a)
      else setDelete s a := rfl

theorem processChangedFile_del (ex s : List String) (p : String) (nf : Option String) :
    processChangedFile ex s "D" (some p) nf = setDelete s p := rfl

theorem processChangedFile_addEvent (ex s : List String) (p : String) (st : String)
    (h1 : st ≠ "D") (h2 : st ≠ "R") :
    processChangedFile ex s st (some p) none =
      if !setHas s p then (if passesFilter ex p then setAdd s p else s) else s := by
  have hd : (st == "D") = false := beq_eq_false_iff_ne.mpr h1
  have hr : (st == "R") = false := beq_eq_false_iff_ne.mpr h2
  simp [processChangedFile, applyAdd, applyDelete, hd, hr]

theorem processChangedFile_mem_cases {ex s : List String} {st : String}
    {f nf : Option String} {x : String}
    (hx : x ∈ processChangedFile ex s st f nf) :
    x ∈ s ∨ passesFilter ex x = true := by
  unfold processChangedFile at hx
  rcases mem_applyAdd hx with h | h
  · exact Or.inl (mem_applyDelete h)
  · exact Or.inr h

theorem processEvents_filter_inv (ex : List String) :
    ∀ (events : List (String × Option String × Option String)) (s0 : List String),
      (∀ x ∈ s0, passesFilter ex x = true) →
      ∀ x ∈ processEvents ex s0 events, passesFilter ex x = true := by
  intro events
  induction events with
  | nil => intro s0 h x hx; exact h x hx
  | cons e t ih =>
    intro s0 h x hx
    refine ih _ ?_ x hx
    intro y hy
    rcases processChangedFile_mem_cases hy with h1 | h1
    · exact h y h1
    · exact h1

/-- C4: processing a rename of a to b followed by a delete of b leaves
neither a nor b in the changed-file set, whatever the set held before; and
the per-event semantics are as claimed: a delete removes its path, a rename
removes the old path and (when the new path passes the insertion filter)
inserts the new one, and any other status inserts its path when it passes
the filter. -/
theorem c4_rename_then_delete_nets_out (ex : List String) :
    (∀ (s : List String) (a b : String),
        a ∉ processChangedFile ex
              (processChangedFile ex s "R" (some a) (some b)) "D" (some b) none ∧
        b ∉ processChangedFile ex
              (processChangedFile ex s "R" (some a) (some b)) "D" (some b) none) ∧
    (∀ (s : List String) (p : String) (nf : Option String),
        processChangedFile ex s "D" (some p) nf = setDelete s p ∧
        p ∉ processChangedFile ex s "D" (some p) nf) ∧
    (∀ (s : List String) (a b : String),
        (a ≠ b → a ∉ processChangedFile ex s "R" (some a) (some b)) ∧
        (passesFilter ex b = true → b ∈ processChangedFile ex s "R" (some a) (some b))) ∧
    (∀ (s : List String) (st p : String), st ≠ "D" → st ≠ "R" →
        passesFilter ex p = true → p ∈ processChangedFile ex s st (some p) none) := by
  have renameMem : ∀ (s : List String) (a b x : String),
      x ∈ processChangedFile ex s "R" (some a) (some b) →
      x ∈ setDelete s a ∨ x = b := by
    intro s a b x hx
    rw [processChangedFile_rename] at hx
    split at hx
    · split at hx
      · exact mem_setAdd.mp hx
      · exact Or.inl hx
    · exact Or.inl hx
  refine ⟨?_, ?_, ?_, ?_⟩
  · intro s a b
    constructor
    · intro ha
      rw [processChangedFile_del] at ha
      obtain ⟨ha1, hab⟩ := mem_setDelete.mp ha
      rcases renameMem s a b a ha1 with h | h
      · exact (mem_setDelete.mp h).2 rfl
      · exact hab h
    · intro hb
      rw [processChangedFile_del] at hb
      exact (mem_setDelete.mp hb).2 rfl
  · intro s p nf
    refine ⟨processChangedFile_del ex s p nf, ?_⟩
    intro hp
    rw [processChangedFile_del] at hp
    exact (mem_setDelete.mp hp).2 rfl
  · intro s a b
    constructor
    · intro hab ha
      rcases renameMem s a b a ha with h | h
      · exact (mem_setDelete.mp h).2 rfl
      · exact hab h
    · intro hpass
      rw [processChangedFile_rename]
      by_cases hhas : setHas (setDelete s a) b = true
      · have hb : b ∈ setDelete s a := by simpa [setHas] using hhas
        rw [if_neg (by simp [hhas])]
        exact hb
      · have hf : setHas (setDelete s a) b = false := by simpa using hhas
        rw [if_pos (by simp [hf]), if_pos hpass]
        exact mem_setAdd.mpr (Or.inr rfl)
  · intro s st p h1 h2 hpass
    rw [processChangedFile_addEvent ex s p st h1 h2]
    by_cases hhas : setHas s p = true
    · have hb : p ∈ s := by simpa [setHas] using hhas
      rw [if_neg (by simp [hhas])]
      exact hb
    · have hf : setHas s p = false := by simpa using hhas
      rw [if_pos (by simp [hf]), if_pos hpass]
      exact mem_setAdd.mpr (Or.inr rfl)

/-- Concrete instantiation of the C4 theorem: rename a.ts to b.ts then
delete b.ts nets out to absence of both, and a plain modification of a
filter-passing path inserts it. -/
theorem c4_witness :
    ("a.ts" ∉ processChangedFile []
        (processChangedFile [] ["src/x.ts"] "R" (some "a.ts") (some "b.ts"))
        "D" (some "b.ts") none) ∧
    ("src/y.ts" ∈ processChangedFile [] [] "M" (some "src/y.ts") none) :=
  ⟨((c4_rename_then_delete_nets_out []).1 ["src/x.ts"] "a.ts" "b.ts").1,
   (c4_rename_then_delete_nets_out []).2.2.2 [] "M" "src/y.ts"
     (by decide) (by decide) (by decide)⟩

/-- C10: starting from the empty set, every path ever present in the
changed-file set passes the exclusion filter, because filtering happens at
the moment of insertion; and a rename whose new name fails the filter
removes the old name without adding the new one. -/
theorem c10_set_only_holds_filtered_paths (ex : List String)
    (events : List (String × Option String × Option String)) :
    (∀ x ∈ processEvents ex [] events, passesFilter ex x = true) ∧
    (∀ (s : List String) (a b : String), passesFilter ex b = false →
        processChangedFile ex s "R" (some a) (some b) = setDelete s a) := by
  constructor
  · exact processEvents_filter_inv ex events [] (by intro x hx; cases hx)
  · intro s a b hfail
    rw [processChangedFile_rename]
    split
    · rw [if_neg (by simp [hfail])]
    · rfl

/-- Concrete instantiation of the C10 theorem: a window that adds a test
file and a source file leaves only the source file, which passes the filter,
and renaming a.ts onto an excluded directory only removes a.ts. -/
theorem c10_witness :
    (∀ x ∈ processEvents [] []
        [("A", some "test/t.ts", none), ("A", some "src/x.ts", none)],
        passesFilter [] x = true) ∧
    processChangedFile ["dist/"] ["a.ts"] "R" (some "a.ts") (some "dist/y.ts") =
      setDelete ["a.ts"] "a.ts" :=
  ⟨(c10_set_only_holds_filtered_paths []
      [("A", some "test/t.ts", none), ("A", some "src/x.ts", none)]).1,
   (c10_set_only_holds_filtered_paths ["dist/"] []).2 ["a.ts"] "a.ts" "dist/y.ts"
     (by decide)⟩

/-- C1: the claim requires the executor to persist the configuration with
the pointer naming S before executing the body of S, and to persist a second
time after a successful body.  The code persists exactly once, in the
finally clause after the body has run, so on the concrete eligible call
below the event trace differs from the trace the claim prescribes: no
persist precedes the body execution, and a successful step produces one
persist, not two. -/
theorem c1_counterexample_no_persist_before_body :
    runStep none "install" true ≠ runStepSpec none "install" true ∧
    (runStep none "install" true).events =
      [RunEvent.execBody "install", RunEvent.persist none] ∧
    RunEvent.persist (some "install") ∉ (runStep none "install" true).events := by
  refine ⟨by decide, by decide, by decide⟩

/-- C1 amended: when the pointer is absent or equals S, the executor sets
the in-memory pointer to S, executes the body, and persists exactly once
afterwards, with the pointer cleared when the body succeeded and still
naming S when it failed (so after a failed body the persisted pointer names
S); when the pointer is present and differs from S, the body of S is not
executed at all. -/
theorem c1_executor_persists_once_after_body
    (pointer : Option String) (stepName : String) :
    (pointer = none ∨ pointer = some stepName →
      runStep pointer stepName true =
        { pointer := none,
          events := [RunEvent.execBody stepName, RunEvent.persist none],
          ok := true } ∧
      runStep pointer stepName false =
        { pointer := some stepName,
          events := [RunEvent.execBody stepName, RunEvent.persist (some stepName)],
          ok := false }) ∧
    (¬(pointer = none ∨ pointer = some stepName) → ∀ bodyOk,
      runStep pointer stepName bodyOk =
        { pointer := pointer, events := [], ok := true }) := by
  constructor
  · intro h
    constructor <;> simp [runStep, h]
  · intro h bodyOk
    simp [runStep, h]

/-- Concrete instantiation of the C1 amended theorem: a failed push body
leaves the persisted pointer naming push, and a later step guarded by a
foreign pointer is skipped. -/
theorem c1_witness :
    runStep none "push" false =
      { pointer := some "push",
        events := [RunEvent.execBody "push", RunEvent.persist (some "push")],
        ok := false } ∧
    runStep (some "push") "tag" true =
      { pointer := some "push", events := [], ok := true } :=
  ⟨((c1_executor_persists_once_after_body none "push") |>.1 (Or.inl rfl)).2,
   (c1_executor_persists_once_after_body (some "push") "tag") |>.2 (by decide) true⟩

/-- C2: the claim states that after a crash that leaves the persisted
pointer absent (tag completed, pointer cleared, push not begun), a re-run
executes only the steps from push onward.  In the code an absent pointer
means startingPublication is true, hence publish is false, so the re-run
executes no step bodies at all — in particular push is not re-executed. -/
theorem c2_counterexample_absent_pointer_runs_nothing :
    publishBeta (some "beta") none false false true true =
      Except.ok (([] : List String), (none : Option String)) := by
  rfl

/-- C2 amended: when a prior beta run fails during the push step, the
persisted pointer names push, and re-running the pipeline executes only the
steps from push onward (push, the declared workflow validations, release);
the update, build, commit and tag bodies are not invoked again, and the run
ends with the pointer at complete. -/
theorem c2_resume_from_push_runs_push_onward
    (changedStrict changedLoose hasPushWorkflow hasReleaseWorkflow : Bool) :
    publishBeta (some "beta") (some "push") changedStrict changedLoose
        hasPushWorkflow hasReleaseWorkflow =
      Except.ok ((["push"]
        ++ (if hasPushWorkflow then ["workflow (push)"] else [])
        ++ ["release"]
        ++ (if hasReleaseWorkflow then ["workflow (release)"] else [])),
        some "complete") ∧
    ∀ s ∈ ["update", "build", "commit", "tag"],
      s ∉ (["push"]
        ++ (if hasPushWorkflow then ["workflow (push)"] else [])
        ++ ["release"]
        ++ (if hasReleaseWorkflow then ["workflow (release)"] else [])) := by
  cases changedStrict <;> cases changedLoose <;>
    cases hasPushWorkflow <;> cases hasReleaseWorkflow <;>
    exact ⟨rfl, by decide⟩

/-- Concrete instantiation of the C2 amended theorem with both workflows
declared: exactly push, workflow (push), release and workflow (release) are
executed, and tag is not re-invoked. -/
theorem c2_witness :
    publishBeta (some "beta") (some "push") false false true true =
      Except.ok (["push", "workflow (push)", "release", "workflow (release)"],
        some "complete") ∧
    "tag" ∉ ["push", "workflow (push)", "release", "workflow (release)"] :=
  ⟨(c2_resume_from_push_runs_push_onward false false true true).1,
   (c2_resume_from_push_runs_push_onward false false true true).2 "tag" (by decide)⟩

theorem listHasPre_append_self (p t : List Char) : listHasPre p (p ++ t) = true := by
  induction p with
  | nil => rfl
  | cons c cs ih => simp [listHasPre, ih]

theorem jsEndsWith_append (a b : String) : jsEndsWith (a ++ b) b = true := by
  unfold jsEndsWith
  have h : (a ++ b).toList = a.toList ++ b.toList := by simp [String.toList]
  rw [h, List.reverse_append]
  exact listHasPre_append_self _ _

theorem string_ext_toList {a b : String} (h : a.toList = b.toList) : a = b := by
  cases a
  cases b
  simp [String.toList] at h
  rw [h]

/-- C7: the publication version during an alpha publish with changes carries
a transient identifier alpha followed by a timestamp, but that stamp has
twelve digits (minute precision), not fourteen: on the specification's own
example date the transient version is 1.2.4-alpha.202401020815, whose stamp
portion has length twelve. -/
theorem c7_counterexample_stamp_has_twelve_digits :
    alphaPublishVersions { major := 1, minor := 2, patch := 3, preRelease := JSStr.undef }
        "2024-01-02T08:15:30.123Z" =
      ("1.2.4-alpha.202401020815", "1.2.4-alpha") ∧
    (transientStamp "2024-01-02T08:15:30.123Z").toList.length = 12 ∧
    ¬(transientStamp "2024-01-02T08:15:30.123Z").toList.length = 14 := by
  refine ⟨by rfl, by rfl, by decide⟩

/-- C7 amended: during an alpha publish with changes, the version used for
the publication itself carries a transient pre-release identifier alpha
followed by a twelve-digit UTC stamp (year month day hour minute), written
only for the duration of the publish step, and the version committed to
source control afterwards is the bare alpha version: the published version
is exactly the committed version followed by a dot and the stamp, the
committed version ends in -alpha, and the stamp has twelve digits whenever
the timestamp supplies at least twelve. -/
theorem c7_transient_alpha_version (v : PackageVersion) (iso : String)
    (h : 12 ≤ (digitsOf iso).toList.length) :
    (alphaPublishVersions v iso).1 =
      (alphaPublishVersions v iso).2 ++ "." ++ transientStamp iso ∧
    jsEndsWith (alphaPublishVersions v iso).2 "-alpha" = true ∧
    (transientStamp iso).toList.length = 12 := by
  refine ⟨?_, ?_, ?_⟩
  · apply string_ext_toList
    by_cases hpre : v.preRelease = JSStr.str "alpha" <;>
      simp [alphaPublishVersions, buildVersion, JSStr.templateText, hpre, String.toList,
        List.append_assoc]
  · by_cases hpre : v.preRelease = JSStr.str "alpha"
    · have hshape : (alphaPublishVersions v iso).2 =
          (toString v.major ++ "." ++ toString v.minor ++ "." ++ toString v.patch)
            ++ "-alpha" := by
        apply string_ext_toList
        simp [alphaPublishVersions, buildVersion, JSStr.templateText, hpre, String.toList,
          List.append_assoc]
      rw [hshape]
      exact jsEndsWith_append _ _
    · have hshape : (alphaPublishVersions v iso).2 =
          (toString v.major ++ "." ++ toString v.minor ++ "." ++ toString (v.patch + 1))
            ++ "-alpha" := by
        apply string_ext_toList
        simp [alphaPublishVersions, buildVersion, JSStr.templateText, hpre, String.toList,
          List.append_assoc]
      rw [hshape]
      exact jsEndsWith_append _ _
  · have h2 : 12 ≤ (digitsOf iso).toList.length := h
    simp only [String.toList] at h2
    simp only [transientStamp, jsSubRange, String.toList]
    rw [List.drop_zero, List.length_take]
    omega

/-- Concrete instantiation of the C7 amended theorem on the specification's
example date. -/
theorem c7_witness :
    (alphaPublishVersions { major := 1, minor := 2, patch := 3, preRelease := JSStr.undef }
        "2024-01-02T08:15:30.123Z").1 =
      (alphaPublishVersions { major := 1, minor := 2, patch := 3, preRelease := JSStr.undef }
        "2024-01-02T08:15:30.123Z").2 ++ "." ++ transientStamp "2024-01-02T08:15:30.123Z" ∧
    (transientStamp "2024-01-02T08:15:30.123Z").toList.length = 12 :=
  ⟨(c7_transient_alpha_version
      { major := 1, minor := 2, patch := 3, preRelease := JSStr.undef }
      "2024-01-02T08:15:30.123Z" (by decide)).1,
   (c7_transient_alpha_version
      { major := 1, minor := 2, patch := 3, preRelease := JSStr.undef }
      "2024-01-02T08:15:30.123Z" (by decide)).2.2⟩

/-- C8: the claim says no repository key present in only one store is ever
dropped and that a local-only key raises a ConfigurationError.  The merge
actually iterates the shared entries only: with shared holding just
repository a and the local store holding just repository b, the merged map
holds only a — the local-only key b is silently dropped and the merge, a
total function, raises nothing. -/
theorem c8_counterexample_local_only_key_dropped :
    mergeRepositories [("a", [("dependencyType", "none")])]
        [("b", [("lastAlphaPublished", "2024-01-01T00:00:00Z")])] =
      [("a", [("dependencyType", "none")])] ∧
    "b" ∉ (mergeRepositories [("a", [("dependencyType", "none")])]
        [("b", [("lastAlphaPublished", "2024-01-01T00:00:00Z")])]).map Prod.fst := by
  refine ⟨by rfl, by decide⟩

/-- C8 amended: the repository keys of the merged configuration are exactly
the keys of the shared store, in order: shared-only keys are kept (with no
overrides applied), local-only keys are silently ignored, and no error is
ever raised by the merge. -/
theorem c8_merged_keys_are_shared_keys
    (shared localStore : List (String × List (String × String))) :
    (mergeRepositories shared localStore).map Prod.fst = shared.map Prod.fst := by
  simp [mergeRepositories, List.map_map, Function.comp]

/-- C9: the claim says that in simulate mode every invocation, including one
requesting captured output, spawns nothing, is logged and returns an empty
result.  In the code a capture request without ignoreDryRun throws instead
of returning empty, and a capture request with ignoreDryRun spawns the
subprocess even in simulate mode. -/
theorem c9_counterexample_capture_in_dry_run :
    publishRun true false true (SpawnOutcome.exited 0 "line\n") =
      { spawned := false,
        result := Except.error "Cannot capture output in dry run" } ∧
    (publishRun true true true (SpawnOutcome.exited 0 "line\n")).spawned = true := by
  refine ⟨by rfl, by rfl⟩

/-- C9 amended: in dry-run mode a call that neither requests captured output
nor sets ignoreDryRun spawns no subprocess, is logged and returns the empty
result; a call requesting captured output without ignoreDryRun throws in any
mode without spawning; and a call with ignoreDryRun set always spawns the
subprocess, dry run or not. -/
theorem c9_dry_run_spawns_nothing_unless_ignored :
    (∀ outcome, publishRun true false false outcome =
      { spawned := false, result := Except.ok [] }) ∧
    (∀ dryRun outcome, publishRun dryRun false true outcome =
      { spawned := false,
        result := Except.error "Cannot capture output in dry run" }) ∧
    (∀ dryRun captureOutput outcome,
      (publishRun dryRun true captureOutput outcome).spawned = true) := by
  refine ⟨fun outcome => rfl, fun dryRun outcome => rfl, ?_⟩
  intro dryRun captureOutput outcome
  cases outcome with
  | spawnErr e => simp [publishRun]
  | signal sig => simp [publishRun]
  | exited status out =>
    by_cases hs : status = 0
    · subst hs
      simp [publishRun]
    · simp [publishRun, hs]

/-- C5: the claim says an absent reference timestamp makes the change check
return true immediately for every value of the strict flag, raising no error
and ignoring the working tree.  In strict (external) mode the code still
runs the uncommitted-tree check even when the timestamp is absent, and with
an uncommitted entry present it throws instead of returning true. -/
theorem c5_counterexample_strict_absent_timestamp_throws :
    PublishTs.anyChanges { } true [] ["?? x.ts"] (fun _ => false) =
      Except.error "Repository has uncommitted changes" := by
  rfl

/-- C5 amended: with the reference timestamp absent, the non-strict change
check returns true immediately, with no error and independent of the git
log, the working tree and modification times; the strict check returns true
only when the working tree is clean and raises the uncommitted-changes error
otherwise. -/
theorem c5_absent_timestamp_change_check (repository : PublishTs.Repository)
    (gitLogLines gitStatusLines : List String) (mtimeNewer : String → Bool)
    (hInt : repository.lastInternalPublished = none)
    (hExt : repository.lastExternalPublished = none) :
    PublishTs.anyChanges repository false gitLogLines gitStatusLines mtimeNewer =
      Except.ok true ∧
    (gitStatusLines = [] →
      PublishTs.anyChanges repository true gitLogLines gitStatusLines mtimeNewer =
        Except.ok true) ∧
    (gitStatusLines ≠ [] →
      PublishTs.anyChanges repository true gitLogLines gitStatusLines mtimeNewer =
        Except.error "Repository has uncommitted changes") := by
  refine ⟨?_, ?_, ?_⟩
  · simp [PublishTs.anyChanges, PublishTs.finishCheck, hInt]
  · intro hempty
    subst hempty
    simp [PublishTs.anyChanges, PublishTs.finishCheck, hExt]
  · intro hne
    have hlen : gitStatusLines.length ≠ 0 := by
      simpa [List.length_eq_zero] using hne
    simp [PublishTs.anyChanges, hExt, hlen]

/-- Concrete instantiation of the C5 amended theorem: never-published
repository, dirty working tree, non-strict check returns true without
consulting anything. -/
theorem c5_witness :
    PublishTs.anyChanges { } false ["abc"] ["?? x.ts"] (fun _ => true) =
      Except.ok true :=
  (c5_absent_timestamp_change_check { } ["abc"] ["?? x.ts"] (fun _ => true) rfl rfl).1

theorem computeDepsUpdatedFrom_ok (releaseType : String)
    (repositories : List (String × Beta.Repository)) (lastPublished : Option String) :
    ∀ (depNames : List String) (flag : Bool),
      (∀ n ∈ depNames, ∃ dr dl, repositories.lookup n = some dr ∧
          Beta.getLastPublished releaseType dr = some dl) →
      Beta.computeDepsUpdatedFrom releaseType repositories lastPublished flag depNames =
        Except.ok
          (flag || depNames.any (Beta.depNewer releaseType repositories lastPublished)) := by
  intro depNames
  induction depNames with
  | nil =>
    intro flag h
    simp [Beta.computeDepsUpdatedFrom]
  | cons n rest ih =>
    intro flag h
    obtain ⟨dr, dl, hdr, hdl⟩ := h n (List.mem_cons_self n rest)
    have hrest : ∀ m ∈ rest, ∃ dr2 dl2, repositories.lookup m = some dr2 ∧
        Beta.getLastPublished releaseType dr2 = some dl2 :=
      fun m hm => h m (List.mem_cons_of_mem n hm)
    cases lastPublished with
    | none =>
      have hp : Beta.depNewer releaseType repositories none n = true := by
        simp [Beta.depNewer, hdr, hdl]
      simp only [Beta.computeDepsUpdatedFrom, hdr, hdl]
      rw [ih _ hrest, List.any_cons, hp]
      cases flag <;> simp
    | some lp =>
      have hp : Beta.depNewer releaseType repositories (some lp) n = jsStrLt lp dl := by
        simp [Beta.depNewer, hdr, hdl]
      simp only [Beta.computeDepsUpdatedFrom, hdr, hdl]
      rw [ih _ hrest, List.any_cons, hp]
      rcases Bool.eq_false_or_eq_true (jsStrLt lp dl) with hj | hj <;>
        simp only [hj] <;> cases flag <;> simp

/-- C6 amended: for a repository whose resolved organization-dependency set
(direct manifest dependencies, configured additional dependencies, and the
cached sets of those, hence the transitive closure) is known and whose
dependencies all carry a channel timestamp, the anyDependenciesUpdated flag
is true exactly when that set is nonempty and either the repository's own
channel timestamp is absent or some member's channel timestamp is strictly
later.  In particular, with no organization dependencies the flag is false
even when the repository's own timestamp is absent. -/
theorem c6_flag_requires_nonempty_deps (organization releaseType : String)
    (repositories : List (String × Beta.Repository))
    (cache : List (String × List (String × Option String)))
    (repository : Beta.Repository) (manifestDependencies : List String)
    (deps : List (String × Option String))
    (hres : Beta.resolveOrgDependencies organization cache manifestDependencies
        (repository.additionalDependencies.getD []) = Except.ok deps)
    (hlast : ∀ n ∈ deps.map Prod.fst, ∃ dr dl, repositories.lookup n = some dr ∧
        Beta.getLastPublished releaseType dr = some dl) :
    ∃ b, Beta.anyDependenciesUpdated organization releaseType repositories cache
        repository manifestDependencies = Except.ok b ∧
      (b = true ↔ deps.map Prod.fst ≠ [] ∧
        (Beta.getLastPublished releaseType repository = none ∨
          ∃ n ∈ deps.map Prod.fst, ∃ dr dl lp, repositories.lookup n = some dr ∧
            Beta.getLastPublished releaseType dr = some dl ∧
            Beta.getLastPublished releaseType repository = some lp ∧
            jsStrLt lp dl = true)) := by
  have hrun := computeDepsUpdatedFrom_ok releaseType repositories
    (Beta.getLastPublished releaseType repository) (deps.map Prod.fst) false hlast
  refine ⟨(deps.map Prod.fst).any
    (Beta.depNewer releaseType repositories
      (Beta.getLastPublished releaseType repository)), ?_, ?_⟩
  · simp only [Beta.anyDependenciesUpdated, hres, Beta.computeDepsUpdated]
    simpa using hrun
  · rw [List.any_eq_true]
    cases hown : Beta.getLastPublished releaseType repository with
    | none =>
      constructor
      · rintro ⟨n, hn, _⟩
        exact ⟨List.ne_nil_of_mem hn, Or.inl rfl⟩
      · rintro ⟨hne, _⟩
        obtain ⟨n, hn⟩ := List.exists_mem_of_ne_nil _ hne
        obtain ⟨dr, dl, hdr, hdl⟩ := hlast n hn
        refine ⟨n, hn, ?_⟩
        simp [Beta.depNewer, hdr, hdl]
    | some lp =>
      constructor
      · rintro ⟨n, hn, hdn⟩
        obtain ⟨dr, dl, hdr, hdl⟩ := hlast n hn
        refine ⟨List.ne_nil_of_mem hn, Or.inr ⟨n, hn, dr, dl, lp, hdr, hdl, ?_⟩⟩
        simpa [Beta.depNewer, hdr, hdl] using hdn
      · rintro ⟨hne, hcase⟩
        rcases hcase with hnone | ⟨n, hn, dr, dl, lp2, hdr, hdl, hlp2, hlt⟩
        · cases hnone
        · have hlp : lp2 = lp := (Option.some.inj hlp2).symm
          subst hlp
          refine ⟨n, hn, ?_⟩
          simp [Beta.depNewer, hdr, hdl, hlt]

/-- Concrete instantiation of the C6 amended theorem on the specification's
example: repository B depends on organization repository A whose last alpha
publication is newer than B's, so the flag is true. -/
theorem c6_witness :
    Beta.anyDependenciesUpdated "aidc-toolkit" "alpha"
        [("core-api", { lastAlphaPublished := some "2024-02-01T00:00:00Z" })]
        [("core-api", [])]
        { lastAlphaPublished := some "2024-01-01T00:00:00Z" }
        ["@aidc-toolkit/core-api"] =
      Except.ok true := by
  have h := c6_flag_requires_nonempty_deps "aidc-toolkit" "alpha"
    [("core-api", { lastAlphaPublished := some "2024-02-01T00:00:00Z" })]
    [("core-api", [])]
    { lastAlphaPublished := some "2024-01-01T00:00:00Z" }
    ["@aidc-toolkit/core-api"]
    [("core-api", some "@aidc-toolkit/core-api")]
    rfl
    (by
      intro n hn
      simp only [List.map_cons, List.map_nil, List.mem_singleton] at hn
      subst hn
      exact ⟨{ lastAlphaPublished := some "2024-02-01T00:00:00Z" },
        "2024-02-01T00:00:00Z", rfl, rfl⟩)
  obtain ⟨b, hrun, hiff⟩ := h
  have hb : b = true := by
    apply hiff.mpr
    refine ⟨by decide, Or.inr ?_⟩
    refine ⟨"core-api", by decide,
      { lastAlphaPublished := some "2024-02-01T00:00:00Z" },
      "2024-02-01T00:00:00Z", "2024-01-01T00:00:00Z", rfl, rfl, rfl, by decide⟩
  rw [hb] at hrun
  exact hrun

/-- C6: the claim says the flag is true exactly when the repository's own
channel timestamp is absent or some dependency's is later.  A repository
with no organization dependencies and no alpha timestamp refutes the only-if
direction: its own timestamp is absent, yet the flag loop never runs and the
flag stays false. -/
theorem c6_counterexample_no_deps_absent_timestamp :
    Beta.anyDependenciesUpdated "aidc-toolkit" "alpha" [] [] { } [] =
      Except.ok false ∧
    Beta.getLastPublished "alpha" ({ } : Beta.Repository) = none := by
  refine ⟨by rfl, by rfl⟩
